import Mathlib

/-!
Verification of the SafeBank repository against its specification.

Shallow embedding conventions:
* JavaScript strings are modelled as `String` when only compared for
  equality, and as `List Char` where character classes matter
  (password validation).
* JavaScript numbers that carry money amounts are modelled as exact
  rationals (`ℚ`): the rational denotes exactly the value written by
  the number's canonical shortest `toString` form. The decimal-places
  check on `toString` therefore depends on the notation the string
  uses: plain decimal notation for values in [1e-6, 1e21), where
  "more than 2 digits after the dot" means `amount * 100` is not an
  integer, and exponential notation outside that range, where a dot
  appears exactly when the significand has more than one digit (and
  the substring after the dot, fraction digits plus the exponent
  suffix, then always exceeds 2 characters).
* The backend ledger / transaction engine is not part of the checked-in
  sources (only the frontend, docs and service entrypoints are); where a
  claim needs it, the definitions are modelled from the spec and say so
  in their doc comments.
-/

namespace SafeBank

/-! ## Frontend validators (`src/frontend/safebank-app/src/utils/validators.js`) -/

/-- Character class `[A-Z]` used by `validatePassword`. -/
def isUpperChar (c : Char) : Bool := 'A' ≤ c && c ≤ 'Z'

/-- Character class `[a-z]` used by `validatePassword`. -/
def isLowerChar (c : Char) : Bool := 'a' ≤ c && c ≤ 'z'

/-- Character class `\d` used by `validatePassword`. -/
def isDigitChar (c : Char) : Bool := '0' ≤ c && c ≤ '9'

/-- The special-character class of `validatePassword`:
the regex character set containing `! @ # $ % ^ & * ( ) , . ? " : | < >`
and the two curly braces. -/
def specialChars : List Char :=
  ['!', '@', '#', '$', '%', '^', '&', '*', '(', ')', ',', '.', '?',
   '"', ':', '\x7b', '\x7d', '|', '<', '>']

/-- Membership in the special-character class. -/
def isSpecialChar (c : Char) : Bool := specialChars.contains c

/-- Result record of `validatePassword`: `{ valid, errors }`. -/
structure PasswordResult where
  valid : Bool
  errors : List String
deriving DecidableEq

/-- Embedding of `validatePassword` (validators.js lines 27–58).
The JS falsy check `!password` on a string argument is the empty-string
check; the password text itself is a list of characters. -/
def validatePassword (password : List Char) : PasswordResult :=
  if password = [] then
    ⟨false, ["Password is required"]⟩
  else
    let errors : List String :=
      (if password.length < 8 then ["Password must be at least 8 characters"] else []) ++
      (if password.any isUpperChar then [] else ["Password must contain at least one uppercase letter"]) ++
      (if password.any isLowerChar then [] else ["Password must contain at least one lowercase letter"]) ++
      (if password.any isDigitChar then [] else ["Password must contain at least one number"]) ++
      (if password.any isSpecialChar then [] else ["Password must contain at least one special character"])
    ⟨errors.isEmpty, errors⟩

/-- Embedding of `isValidPassword` (validators.js lines 269–271). -/
def isValidPassword (password : List Char) : Bool :=
  (validatePassword password).valid

/-- The score accumulated by `getPasswordStrength` (validators.js):
three length points and four character-class points. -/
def passwordScore (password : List Char) : Nat :=
  (if 8 ≤ password.length then 1 else 0) +
  (if 12 ≤ password.length then 1 else 0) +
  (if 16 ≤ password.length then 1 else 0) +
  (if password.any isUpperChar then 1 else 0) +
  (if password.any isLowerChar then 1 else 0) +
  (if password.any isDigitChar then 1 else 0) +
  (if password.any isSpecialChar then 1 else 0)

/-- Embedding of `getPasswordStrength` (validators.js lines 277–293). -/
def getPasswordStrength (password : List Char) : String :=
  if password = [] then "weak"
  else if passwordScore password ≤ 3 then "weak"
  else if passwordScore password ≤ 5 then "medium"
  else "strong"

/-- Input to `validateAmount`: the JS argument is either a nullish/empty
value, a non-numeric string (`parseFloat` yields `NaN`), or a parsed
numeric amount. -/
inductive AmountInput where
  | empty
  | nonNumeric
  | num (q : ℚ)
deriving DecidableEq

/-- Result record of `validateAmount`: `{ valid, error }`. -/
structure AmountResult where
  valid : Bool
  error : Option String
deriving DecidableEq

/-- JavaScript `Number.prototype.toString` prints a positive finite
number in exponential notation exactly when its value is below 1e-6 or
at least 1e21; otherwise it uses plain decimal notation. -/
def jsExponentialRegime (q : ℚ) : Bool :=
  decide (q < 1 / 1000000) || decide ((10 : ℚ) ^ 21 ≤ q)

/-- The canonical shortest decimal form of the number has a single
significant digit: the value is `d * 10 ^ e` or `d / 10 ^ e` for some
digit `d` in 1..9. The exponent bound 400 covers every double (the
shortest form of any finite double has an exponent of magnitude below
400). -/
def singleSigDigit (q : ℚ) : Bool :=
  (List.range 400).any (fun e =>
    decide ((q * 10 ^ e).den = 1 ∧ 1 ≤ (q * 10 ^ e).num ∧ (q * 10 ^ e).num ≤ 9)) ||
  (List.range 400).any (fun e =>
    decide ((q / 10 ^ e).den = 1 ∧ 1 ≤ (q / 10 ^ e).num ∧ (q / 10 ^ e).num ≤ 9))

/-- The decimal-places rejection check of `validateAmount`, performed
on `numAmount.toString()`: in plain decimal notation the string
contains a dot with more than 2 digits after it iff `q * 100` is not
an integer; in exponential notation a dot appears iff the significand
has more than one significant digit, and the substring after the dot
(at least one fraction digit plus the `e±XX` suffix) then always has
more than 2 characters, so the check rejects exactly then. -/
def jsDecimalsReject (q : ℚ) : Bool :=
  if jsExponentialRegime q then !singleSigDigit q
  else decide ((q * 100).den ≠ 1)

/-- Embedding of `validateAmount` (validators.js lines 97–127): the
required/numeric checks, the positivity check, the decimal-places
check on the number's string form (see `jsDecimalsReject`), and the
maximum check, in source order. -/
def validateAmount : AmountInput → AmountResult
  | .empty => ⟨false, some "Amount is required"⟩
  | .nonNumeric => ⟨false, some "Amount must be a number"⟩
  | .num q =>
    if q ≤ 0 then ⟨false, some "Amount must be positive"⟩
    else if jsDecimalsReject q then
      ⟨false, some "Amount cannot have more than 2 decimal places"⟩
    else if 1000000000 < q then ⟨false, some "Amount is too large"⟩
    else ⟨true, none⟩

/-! ## Frontend auth utilities (`src/frontend/safebank-app/src/utils/auth.js`) -/

/-- Sanitized user record stored by `setUser` in auth.js: the fields
relevant to authorization decisions. -/
structure StoredUser where
  roles : List String
  permissions : List String
deriving DecidableEq

/-- Embedding of `getUserPermissions` (auth.js): the stored user's
permission array, or `[]` when no user data is stored. -/
def getUserPermissions : Option StoredUser → List String
  | none => []
  | some u => u.permissions

/-- Embedding of `getUserRoles` (auth.js). -/
def getUserRoles : Option StoredUser → List String
  | none => []
  | some u => u.roles

/-- Embedding of `hasPermission` (auth.js lines 178–181): membership of
the requested permission string in the stored permission array. -/
def hasPermission (user : Option StoredUser) (permission : String) : Bool :=
  (getUserPermissions user).contains permission

/-- Embedding of `hasRole` (auth.js). -/
def hasRole (user : Option StoredUser) (role : String) : Bool :=
  (getUserRoles user).contains role

/-- A presented token, as `decodeToken` discriminates its argument:
either a nullish / non-string / empty value, or a string splitting into
`n` dot-separated parts whose middle part may or may not base64-decode
to a JSON payload; a decoded payload carries an optional numeric `exp`
claim (in seconds). -/
inductive TokenPresented where
  | invalid
  | parts (n : Nat) (payload : Option (Option Int))
deriving DecidableEq

/-- Embedding of `decodeToken` (auth.js lines 105–118): `null` unless
the token is a string with exactly 3 dot-separated parts whose payload
decodes; otherwise the decoded payload. -/
def decodeToken : TokenPresented → Option (Option Int)
  | .invalid => none
  | .parts n payload => if n = 3 then payload else none

/-- Embedding of `isTokenExpired` (auth.js lines 125–132): `true` when
decoding fails, when the `exp` claim is falsy (absent or `0`), or when
`exp` is before the current time (`Date.now()` in whole seconds). -/
def isTokenExpired (token : TokenPresented) (now : Int) : Bool :=
  match decodeToken token with
  | none => true
  | some payload =>
    match payload with
    | none => true
    | some e => if e = 0 then true else decide (e < now)

/-- Embedding of `isAuthenticated` (auth.js lines 138–143): a token is
stored and not expired. -/
def isAuthenticated (storedToken : Option TokenPresented) (now : Int) : Bool :=
  match storedToken with
  | none => false
  | some t => ! isTokenExpired t now

/-! ## Protected route (`src/frontend/safebank-app/src/components/ProtectedRoute.jsx`) -/

/-- The four things `ProtectedRoute` can render: the loading spinner, a
redirect to `/login`, a redirect to `/forbidden`, or its children. -/
inductive RouteOutcome where
  | loading
  | toLogin
  | toForbidden
  | render
deriving DecidableEq

/-- Inputs read by `ProtectedRoute` from the auth context and from
localStorage. -/
structure RouteCtx where
  loading : Bool
  isAuthenticated : Bool
  user : Option StoredUser
  tokenExists : Bool
  storedUser : Option StoredUser
deriving DecidableEq

/-- Embedding of the `ProtectedRoute` component body
(ProtectedRoute.jsx lines 20–92): loading states, authentication
redirect, then the role check and the permission check, each passing
when `some` listed entry is held. -/
def protectedRoute (ctx : RouteCtx) (requiredRoles requiredPermissions : List String)
    (requireAuth : Bool) : RouteOutcome :=
  if ctx.loading then .loading
  else if !ctx.isAuthenticated && ctx.tokenExists && ctx.storedUser.isSome then .loading
  else
    let effectivelyAuthenticated :=
      ctx.isAuthenticated || (ctx.tokenExists && ctx.storedUser.isSome)
    if requireAuth && !effectivelyAuthenticated then .toLogin
    else
      match ctx.user.orElse (fun _ => ctx.storedUser) with
      | some u =>
        if !requiredRoles.isEmpty
            && !(requiredRoles.any (fun r => u.roles.contains r)) then .toForbidden
        else if !requiredPermissions.isEmpty
            && !(requiredPermissions.any (fun p => u.permissions.contains p)) then .toForbidden
        else .render
      | none => .render

/-! ## Transfer page (`src/frontend/safebank-app/src/pages/customer/Transfer.jsx`) -/

/-- Outcome of the client-side part of `handleInternalTransfer`: either
an error message is set and the handler returns without calling the
API, or the transfer request is submitted to the transactions API. -/
inductive TransferAction where
  | reject (msg : String)
  | submit (senderAccountId receiverAccountId : String) (amount : AmountInput)
      (description : String)
deriving DecidableEq

/-- Embedding of `handleInternalTransfer` (Transfer.jsx lines 67–100):
the same-account check runs first, then amount validation, and only
then is the API call made. -/
def handleInternalTransfer (senderAccountId receiverAccountId : String)
    (amount : AmountInput) (description : String) : TransferAction :=
  if senderAccountId = receiverAccountId then
    .reject "Cannot transfer to the same account"
  else
    let v := validateAmount amount
    if v.valid then .submit senderAccountId receiverAccountId amount description
    else .reject (v.error.getD "")

/-! ## Forced password change
(`src/frontend/safebank-app/src/pages/auth/ForcePasswordChange.jsx`) -/

/-- Outcome of the client-side validation in the force-password-change
`handleSubmit`: either an error message is set and the handler returns
without calling the API, or the credential update is submitted. -/
inductive FpcAction where
  | reject (msg : String)
  | submit (currentPassword newPassword : List Char)
deriving DecidableEq

/-- Embedding of `handleSubmit` in ForcePasswordChange.jsx
(lines 74–97): empty-field check, equality with the current password,
confirmation match, then the complexity policy; only past all four does
the API call happen. -/
def forcePasswordChangeSubmit (currentPassword newPassword confirmPassword : List Char) :
    FpcAction :=
  if currentPassword = [] ∨ newPassword = [] ∨ confirmPassword = [] then
    .reject "Please fill in all fields"
  else if newPassword = currentPassword then
    .reject "New password must be different from current password"
  else if newPassword ≠ confirmPassword then
    .reject "New passwords do not match"
  else if !isValidPassword newPassword then
    .reject "Password must be at least 8 characters with uppercase, lowercase, number, and special character"
  else
    .submit currentPassword newPassword

/-! ## Ledger Store and Transaction Engine

Modelled from the spec: the backend accounts/ledger service is not among
the checked-in sources (only the frontend, service entrypoints and docs
are), so the Ledger Store (§4.3) and Transaction Engine (§4.4) are
modelled from the spec's own words. Amounts are exact fixed-point
decimals with 2 fractional digits, represented as integer cents; the
spec requires `applyMutation` to be linearizable per account, so
concurrent requests are modelled as an arbitrary serialization order of
engine calls. The permission/ownership validation steps (§4.4 (a), (d))
gate which requests are executed at all and are orthogonal to balance
dynamics; the operations below model the executed money movements. -/

/-- Account status (spec §3): `Active`, `Frozen` or `Closed`. -/
inductive AccountStatus where
  | Active
  | Frozen
  | Closed
deriving DecidableEq

/-- Modelled from the spec: an Account row of the Ledger Store — its
balance in cents and its status (spec §3). -/
structure Account where
  balance : Int
  status : AccountStatus
deriving DecidableEq

/-- The Ledger Store's account table, keyed by account id. -/
def AccountMap : Type := Nat → Option Account

/-- Pointwise update of one account row. -/
def updateAccount (m : AccountMap) (id : Nat) (a : Account) : AccountMap :=
  fun j => if j = id then some a else m j

/-- Error kinds of the ledger and engine (spec §7), plus the injected
failure used by the atomicity test (spec §8). -/
inductive TxError where
  | AccountNotFound
  | AccountNotActive
  | Conflict
  | InvalidAmount
  | InsufficientFunds
  | SameAccountTransfer
  | InjectedFailure
deriving DecidableEq

/-- Modelled from the spec: the configured maximum amount (overflow
guard, §4.4 (b)) in cents. -/
def maxAmount : Int := 100000000000

/-- Modelled from the spec: engine amount validation (§4.4 (b)) — a
positive value below the configured maximum; at most 2 fractional
digits is enforced by the cents representation. -/
def validAmount (a : Int) : Bool := 0 < a && a < maxAmount

/-- Modelled from the spec: `applyMutation` of the Ledger Store
(§4.3) — atomically adjust the balance by `delta` iff the current
status matches `expectedStatus` and the resulting balance is ≥ 0. -/
def applyMutation (m : AccountMap) (id : Nat) (delta : Int)
    (expectedStatus : AccountStatus) : Except TxError AccountMap :=
  match m id with
  | none => .error .AccountNotFound
  | some acct =>
    if acct.status ≠ expectedStatus then .error .Conflict
    else if acct.balance + delta < 0 then .error .InsufficientFunds
    else .ok (updateAccount m id ⟨acct.balance + delta, acct.status⟩)

/-- Modelled from the spec: an immutable Transaction record (§3). -/
structure Transaction where
  sender : Nat
  receiver : Nat
  amount : Int
  type : String
deriving DecidableEq

/-- Modelled from the spec: the Transaction Engine's state — the Ledger
Store's account table plus its append-only transaction log. -/
structure EngineState where
  accounts : AccountMap
  txLog : List Transaction
  numbers : String → Option Nat

/-- Modelled from the spec: the Executing phase of a transfer (§4.4) —
one debit on the sender and one credit on the receiver, each an atomic
`applyMutation`; when a failure is injected between the two, or the
credit fails, the engine reverses the debit (compensating action)
before reporting failure. Returns the resulting account table and the
error, if any. -/
def transferExec (m : AccountMap) (sender receiver : Nat) (amount : Int)
    (failBetween : Bool) : AccountMap × Option TxError :=
  match applyMutation m sender (-amount) .Active with
  | .error e => (m, some e)
  | .ok m₁ =>
    if failBetween then
      match applyMutation m₁ sender amount .Active with
      | .ok m₂ => (m₂, some .InjectedFailure)
      | .error _ => (m₁, some .InjectedFailure)
    else
      match applyMutation m₁ receiver amount .Active with
      | .ok m₂ => (m₂, none)
      | .error e =>
        match applyMutation m₁ sender amount .Active with
        | .ok m₂ => (m₂, some e)
        | .error _ => (m₁, some e)

/-- Modelled from the spec: the deposit operation (§4.4) — validation
(amount, existence, Active status) then one credit and one Transaction
record; a Rejected outcome performs no mutation. -/
def depositOp (st : EngineState) (acct : Nat) (amount : Int) :
    EngineState × Except TxError Transaction :=
  if !validAmount amount then (st, .error .InvalidAmount)
  else
    match st.accounts acct with
    | none => (st, .error .AccountNotFound)
    | some a =>
      if a.status ≠ .Active then (st, .error .AccountNotActive)
      else
        match applyMutation st.accounts acct amount .Active with
        | .error e => (st, .error e)
        | .ok m' =>
          let tx : Transaction := ⟨acct, acct, amount, "deposit"⟩
          (⟨m', st.txLog ++ [tx], st.numbers⟩, .ok tx)

/-- Modelled from the spec: the withdrawal operation (§4.4) —
validation including the sufficient-balance check (§4.4 (f)), then one
debit and one Transaction record; a Rejected outcome performs no
mutation. -/
def withdrawOp (st : EngineState) (acct : Nat) (amount : Int) :
    EngineState × Except TxError Transaction :=
  if !validAmount amount then (st, .error .InvalidAmount)
  else
    match st.accounts acct with
    | none => (st, .error .AccountNotFound)
    | some a =>
      if a.status ≠ .Active then (st, .error .AccountNotActive)
      else if a.balance < amount then (st, .error .InsufficientFunds)
      else
        match applyMutation st.accounts acct (-amount) .Active with
        | .error e => (st, .error e)
        | .ok m' =>
          let tx : Transaction := ⟨acct, acct, amount, "withdrawal"⟩
          (⟨m', st.txLog ++ [tx], st.numbers⟩, .ok tx)

/-- Modelled from the spec: the internal transfer operation (§4.4) —
validation (amount, same-account rejection, existence, Active status of
both accounts, sufficient balance) then the debit/credit pair of
`transferExec`; exactly one Transaction record is written on commit,
none otherwise. `failBetween` injects a failure between debit and
credit (spec §8, atomicity of transfer). -/
def internalTransferOp (st : EngineState) (sender receiver : Nat) (amount : Int)
    (failBetween : Bool) : EngineState × Except TxError Transaction :=
  if !validAmount amount then (st, .error .InvalidAmount)
  else if sender = receiver then (st, .error .SameAccountTransfer)
  else
    match st.accounts sender, st.accounts receiver with
    | none, _ => (st, .error .AccountNotFound)
    | some _, none => (st, .error .AccountNotFound)
    | some s, some r =>
      if s.status ≠ .Active ∨ r.status ≠ .Active then (st, .error .AccountNotActive)
      else if s.balance < amount then (st, .error .InsufficientFunds)
      else
        match transferExec st.accounts sender receiver amount failBetween with
        | (m', some e) => (⟨m', st.txLog, st.numbers⟩, .error e)
        | (m', none) =>
          let tx : Transaction := ⟨sender, receiver, amount, "internal"⟩
          (⟨m', st.txLog ++ [tx], st.numbers⟩, .ok tx)

/-- Modelled from the spec: the external transfer operation (§4.4) —
as the internal transfer, but the receiver is resolved by account
number and may belong to anyone. -/
def externalTransferOp (st : EngineState) (sender : Nat) (receiverNumber : String)
    (amount : Int) (failBetween : Bool) : EngineState × Except TxError Transaction :=
  if !validAmount amount then (st, .error .InvalidAmount)
  else
    match st.numbers receiverNumber with
    | none => (st, .error .AccountNotFound)
    | some receiver =>
      match st.accounts sender, st.accounts receiver with
      | none, _ => (st, .error .AccountNotFound)
      | some _, none => (st, .error .AccountNotFound)
      | some s, some r =>
        if s.status ≠ .Active ∨ r.status ≠ .Active then (st, .error .AccountNotActive)
        else if s.balance < amount then (st, .error .InsufficientFunds)
        else
          match transferExec st.accounts sender receiver amount failBetween with
          | (m', some e) => (⟨m', st.txLog, st.numbers⟩, .error e)
          | (m', none) =>
            let tx : Transaction := ⟨sender, receiver, amount, "external"⟩
            (⟨m', st.txLog ++ [tx], st.numbers⟩, .ok tx)

/-- A client-requested money movement (spec §4.4). -/
inductive Op where
  | deposit (acct : Nat) (amount : Int)
  | withdraw (acct : Nat) (amount : Int)
  | transferInternal (sender receiver : Nat) (amount : Int)
  | transferExternal (sender : Nat) (receiverNumber : String) (amount : Int)
deriving DecidableEq

/-- Execute one requested operation (no failure injection). -/
def runOp (st : EngineState) : Op → EngineState × Except TxError Transaction
  | .deposit a amt => depositOp st a amt
  | .withdraw a amt => withdrawOp st a amt
  | .transferInternal s r amt => internalTransferOp st s r amt false
  | .transferExternal s rn amt => externalTransferOp st s rn amt false

/-- Execute a serialized sequence of requested operations, collecting
each request's outcome. The spec's linearizability requirement (§4.4)
means any interleaving of concurrent requests is one such sequence. -/
def runOps (st : EngineState) : List Op → EngineState × List (Except TxError Transaction)
  | [] => (st, [])
  | op :: ops =>
    let p := runOp st op
    let q := runOps p.1 ops
    (q.1, p.2 :: q.2)

/-- The no-negative-balance invariant (spec §3, §8): every existing
account has balance ≥ 0. -/
def allNonneg (m : AccountMap) : Prop :=
  ∀ j a, m j = some a → 0 ≤ a.balance

/-- Boolean success discriminator for an engine outcome. -/
def isCommitted : Except TxError Transaction → Bool
  | .ok _ => true
  | .error _ => false

/-! ## Shared lemmas -/

/-- Characterization of `validatePassword`: the result is valid exactly
when the password has length ≥ 8 and contains each of the four required
character classes. -/
lemma validatePassword_valid_iff (p : List Char) :
    (validatePassword p).valid = true ↔
      (8 ≤ p.length ∧ p.any isUpperChar = true ∧ p.any isLowerChar = true ∧
       p.any isDigitChar = true ∧ p.any isSpecialChar = true) := by
  by_cases hp : p = []
  · subst hp; simp [validatePassword]
  · by_cases h1 : p.length < 8 <;>
      by_cases h2 : p.any isUpperChar <;>
      by_cases h3 : p.any isLowerChar <;>
      by_cases h4 : p.any isDigitChar <;>
      by_cases h5 : p.any isSpecialChar <;>
        simp [validatePassword, hp, h1, h2, h3, h4, h5] <;> omega

/-- Characterization of `validateAmount`: the result is valid exactly
when the input is a parsed number that is positive, at most
1 000 000 000, and passes the decimal-places check on its string form:
at most 2 fractional digits in the plain-decimal regime (≥ 1e-6), or a
single-significant-digit value in the exponential regime (< 1e-6),
where no dot is printed and the check is skipped. -/
lemma validateAmount_valid_iff (a : AmountInput) :
    (validateAmount a).valid = true ↔
      ∃ q, a = .num q ∧ 0 < q ∧ q ≤ 1000000000 ∧
        ((1 / 1000000 ≤ q ∧ (q * 100).den = 1) ∨
         (q < 1 / 1000000 ∧ singleSigDigit q = true)) := by
  cases a with
  | empty => simp [validateAmount]
  | nonNumeric => simp [validateAmount]
  | num q =>
    by_cases h1 : q ≤ 0
    · simp only [validateAmount, if_pos h1]
      constructor
      · intro h
        simp at h
      · rintro ⟨q', heq, hpos, _⟩
        injection heq with h'
        subst h'
        linarith
    · have hq : 0 < q := not_le.mp h1
      by_cases hlow : q < 1 / 1000000
      · have hreg : jsExponentialRegime q = true := by
          unfold jsExponentialRegime
          rw [Bool.or_eq_true]
          left
          rw [decide_eq_true_eq]
          exact hlow
        by_cases hs : singleSigDigit q = true
        · have hrej : jsDecimalsReject q = false := by
            simp [jsDecimalsReject, hreg, hs]
          have hmax : ¬(1000000000 : ℚ) < q := by
            have hc : (1 / 1000000 : ℚ) < 1000000000 := by norm_num
            intro hcon
            linarith
          simp only [validateAmount, if_neg h1, hrej, Bool.false_eq_true, if_false,
            if_neg hmax]
          constructor
          · intro _
            exact ⟨q, rfl, hq, le_of_not_lt hmax, Or.inr ⟨hlow, hs⟩⟩
          · intro _
            trivial
        · have hs' : singleSigDigit q = false := by
            revert hs
            cases singleSigDigit q <;> simp
          have hrej : jsDecimalsReject q = true := by
            simp [jsDecimalsReject, hreg, hs']
          simp only [validateAmount, if_neg h1, hrej, if_true]
          constructor
          · intro h
            simp at h
          · rintro ⟨q', heq, _, _, hcase⟩
            injection heq with h'
            subst h'
            rcases hcase with ⟨hge, _⟩ | ⟨_, hsig⟩
            · linarith
            · exact absurd hsig hs
      · by_cases hhigh : (10 : ℚ) ^ 21 ≤ q
        · have hreg : jsExponentialRegime q = true := by
            unfold jsExponentialRegime
            rw [Bool.or_eq_true]
            right
            rw [decide_eq_true_eq]
            exact hhigh
          have hmax : (1000000000 : ℚ) < q := by
            have hc : (1000000000 : ℚ) < 10 ^ 21 := by norm_num
            linarith
          constructor
          · intro h
            exfalso
            simp only [validateAmount, if_neg h1] at h
            by_cases hs : singleSigDigit q = true
            · have hrej : jsDecimalsReject q = false := by
                simp [jsDecimalsReject, hreg, hs]
              simp only [hrej, Bool.false_eq_true, if_false, if_pos hmax] at h
            · have hs' : singleSigDigit q = false := by
                revert hs
                cases singleSigDigit q <;> simp
              have hrej : jsDecimalsReject q = true := by
                simp [jsDecimalsReject, hreg, hs']
              simp only [hrej, if_true] at h
              exact Bool.noConfusion h
          · rintro ⟨q', heq, _, hle, _⟩
            injection heq with h'
            subst h'
            linarith
        · have hreg : jsExponentialRegime q = false := by
            unfold jsExponentialRegime
            rw [Bool.or_eq_false_iff]
            constructor <;> rw [decide_eq_false_iff_not]
            · exact hlow
            · exact hhigh
          by_cases hden : (q * 100).den = 1
          · have hrej : jsDecimalsReject q = false := by
              simp [jsDecimalsReject, hreg, hden]
            by_cases hmax : (1000000000 : ℚ) < q
            · simp only [validateAmount, if_neg h1, hrej, Bool.false_eq_true, if_false,
                if_pos hmax]
              constructor
              · intro h
                simp at h
              · rintro ⟨q', heq, _, hle, _⟩
                injection heq with h'
                subst h'
                linarith
            · simp only [validateAmount, if_neg h1, hrej, Bool.false_eq_true, if_false,
                if_neg hmax]
              constructor
              · intro _
                exact ⟨q, rfl, hq, le_of_not_lt hmax, Or.inl ⟨le_of_not_lt hlow, hden⟩⟩
              · intro _
                trivial
          · have hrej : jsDecimalsReject q = true := by
              simp [jsDecimalsReject, hreg, hden]
            simp only [validateAmount, if_neg h1, hrej, if_true]
            constructor
            · intro h
              simp at h
            · rintro ⟨q', heq, _, _, hcase⟩
              injection heq with h'
              subst h'
              rcases hcase with ⟨_, hd⟩ | ⟨hlt, _⟩
              · exact absurd hd hden
              · exact absurd hlt hlow

/-! ## Claim theorems -/

/-- C6: the password-complexity policy accepts a candidate password iff
it has length at least 8 and contains at least one uppercase letter,
one lowercase letter, one digit, and one special-class character; a
password missing any of these is rejected. -/
theorem password_policy_accepts_iff (p : List Char) :
    (validatePassword p).valid = true ↔
      (8 ≤ p.length ∧ p.any isUpperChar = true ∧ p.any isLowerChar = true ∧
       p.any isDigitChar = true ∧ p.any isSpecialChar = true) :=
  validatePassword_valid_iff p

/-- C10: every password accepted by the full complexity validation
scores at least 5 strength points, so its strength rating is `medium`
or `strong`, never `weak`. -/
theorem accepted_password_never_weak (p : List Char) (h : isValidPassword p = true) :
    5 ≤ passwordScore p ∧
      (getPasswordStrength p = "medium" ∨ getPasswordStrength p = "strong") ∧
      getPasswordStrength p ≠ "weak" := by
  obtain ⟨hlen, h2, h3, h4, h5⟩ := (validatePassword_valid_iff p).mp h
  have hp : p ≠ [] := by
    intro hnil
    rw [hnil] at hlen
    simp at hlen
  have hscore : 5 ≤ passwordScore p := by
    unfold passwordScore
    rw [if_pos hlen, if_pos h2, if_pos h3, if_pos h4, if_pos h5]
    split <;> split <;> omega
  refine ⟨hscore, ?_, ?_⟩
  · unfold getPasswordStrength
    rw [if_neg hp, if_neg (by omega)]
    split
    · exact Or.inl rfl
    · exact Or.inr rfl
  · unfold getPasswordStrength
    rw [if_neg hp, if_neg (by omega)]
    split <;> simp

/-- C10 witness: a concrete accepted password is rated at least medium. -/
theorem accepted_password_never_weak_witness :
    isValidPassword ['A', 'b', 'c', 'd', 'e', 'f', '1', '!'] = true ∧
      5 ≤ passwordScore ['A', 'b', 'c', 'd', 'e', 'f', '1', '!'] ∧
      getPasswordStrength ['A', 'b', 'c', 'd', 'e', 'f', '1', '!'] ≠ "weak" := by
  have hv : isValidPassword ['A', 'b', 'c', 'd', 'e', 'f', '1', '!'] = true := by decide
  have h := accepted_password_never_weak ['A', 'b', 'c', 'd', 'e', 'f', '1', '!'] hv
  exact ⟨hv, h.1, h.2.2⟩

/-- C3 counterexample: the claimed acceptance condition ("accepted iff
positive, at most 2 fractional digits, and below the maximum") fails
at two concrete inputs. At 1 000 000 000 — a positive amount with 0
fractional digits that is not below the configured maximum — the code
accepts the amount that equals the maximum. At 0.0000001 — a positive
amount with 7 fractional digits — the code also accepts: its string
form is exponential (`1e-7`) and contains no dot, so the
decimal-places check never fires. -/
theorem amount_validation_claim_counterexample :
    ¬(((validateAmount (.num 1000000000)).valid = true) ↔
      (0 < (1000000000 : ℚ) ∧ ((1000000000 : ℚ) * 100).den = 1 ∧
        (1000000000 : ℚ) < 1000000000)) ∧
    ¬(((validateAmount (.num (1 / 10000000))).valid = true) ↔
      (0 < (1 / 10000000 : ℚ) ∧ ((1 / 10000000 : ℚ) * 100).den = 1 ∧
        (1 / 10000000 : ℚ) < 1000000000)) := by
  have hreg9 : jsExponentialRegime (1000000000 : ℚ) = false := by
    unfold jsExponentialRegime
    rw [Bool.or_eq_false_iff]
    constructor <;> rw [decide_eq_false_iff_not] <;> norm_num
  have hrej9 : jsDecimalsReject (1000000000 : ℚ) = false := by
    unfold jsDecimalsReject
    rw [if_neg (by rw [hreg9]; exact Bool.false_ne_true), decide_eq_false_iff_not]
    simp only [ne_eq, not_not]
    norm_num
  have hv9 : (validateAmount (.num 1000000000)).valid = true := by
    simp only [validateAmount, hrej9, Bool.false_eq_true, if_false]
    rw [if_neg (show ¬(1000000000 : ℚ) ≤ 0 by norm_num),
      if_neg (show ¬(1000000000 : ℚ) < 1000000000 by norm_num)]
  have hreg7 : jsExponentialRegime (1 / 10000000 : ℚ) = true := by
    unfold jsExponentialRegime
    rw [Bool.or_eq_true]
    left
    rw [decide_eq_true_eq]
    norm_num
  have hs7 : singleSigDigit (1 / 10000000 : ℚ) = true := by
    unfold singleSigDigit
    rw [Bool.or_eq_true]
    left
    rw [List.any_eq_true]
    refine ⟨7, ?_, ?_⟩
    · simp
    · rw [decide_eq_true_eq]
      norm_num
  have hrej7 : jsDecimalsReject (1 / 10000000 : ℚ) = false := by
    unfold jsDecimalsReject
    rw [if_pos hreg7, hs7]
    rfl
  have hv7 : (validateAmount (.num (1 / 10000000))).valid = true := by
    simp only [validateAmount, hrej7, Bool.false_eq_true, if_false]
    rw [if_neg (show ¬(1 / 10000000 : ℚ) ≤ 0 by norm_num),
      if_neg (show ¬(1000000000 : ℚ) < 1 / 10000000 by norm_num)]
  constructor
  · intro h
    exact absurd (h.mp hv9).2.2 (lt_irrefl _)
  · intro h
    have hd : ((1 / 10000000 : ℚ) * 100).den ≠ 1 := by norm_num
    exact absurd (h.mp hv7).2.1 hd

/-- C3 (amended): amount validation accepts an amount iff it is a
parsed number that is positive, at most (not strictly below) the
configured maximum of 1 000 000 000, and passes the decimal-places
check on the number's string form — for amounts of at least 0.000001,
printed in plain decimal notation, at most 2 fractional digits; for
amounts below 0.000001, printed in exponential notation, exactly the
single-significant-digit values, since only then no dot appears and
the check is skipped. Empty, non-numeric and non-positive amounts and
amounts exceeding the maximum are rejected with an error message. -/
theorem amount_validation_accepts_iff (a : AmountInput) :
    (validateAmount a).valid = true ↔
      ∃ q, a = .num q ∧ 0 < q ∧ q ≤ 1000000000 ∧
        ((1 / 1000000 ≤ q ∧ (q * 100).den = 1) ∨
         (q < 1 / 1000000 ∧ singleSigDigit q = true)) :=
  validateAmount_valid_iff a

/-- C4: the authorization decision is a pure membership test — it
returns true iff the requested permission string is an element of the
stored permission set, and it depends only on the permission set (so no
role name is special-cased in the decision). -/
theorem authorization_is_permission_membership :
    (∀ (u : Option StoredUser) (p : String),
      hasPermission u p = true ↔ p ∈ getUserPermissions u) ∧
    (∀ (u u' : Option StoredUser) (p : String),
      getUserPermissions u = getUserPermissions u' →
      hasPermission u p = hasPermission u' p) := by
  constructor
  · intro u p
    simp [hasPermission]
  · intro u u' p h
    simp [hasPermission, h]

/-- C4 witness: a concrete held permission is granted, and two users
with the same permission set but different role sets get the same
decision. -/
theorem authorization_is_permission_membership_witness :
    hasPermission (some ⟨["customer"], ["accounts:view:own"]⟩) "accounts:view:own" = true ∧
      hasPermission (some ⟨["customer"], ["accounts:view:own"]⟩) "accounts:view:any" =
        hasPermission (some ⟨["admin"], ["accounts:view:own"]⟩) "accounts:view:any" := by
  constructor
  · exact (authorization_is_permission_membership.1 _ _).mpr (by simp [getUserPermissions])
  · exact authorization_is_permission_membership.2 _ _ _ (by rfl)

/-- C5: token verification fails closed — a token that is malformed
(decoding yields nothing), that lacks an expiry claim, or whose expiry
time is before the current time leaves the holder unauthenticated. -/
theorem token_verification_fails_closed :
    ∀ (t : TokenPresented) (now : Int),
      (decodeToken t = none ∨ decodeToken t = some none ∨
        (∃ e, decodeToken t = some (some e) ∧ e < now)) →
      isAuthenticated (some t) now = false := by
  intro t now h
  rcases h with h | h | ⟨e, he, hlt⟩
  · simp [isAuthenticated, isTokenExpired, h]
  · simp [isAuthenticated, isTokenExpired, h]
  · by_cases h0 : e = 0 <;> simp [isAuthenticated, isTokenExpired, he, h0, hlt]

/-- C5 witness: a malformed token (two dot-separated parts) and an
expired token are both treated as unauthenticated. -/
theorem token_verification_fails_closed_witness :
    isAuthenticated (some (.parts 2 (some (some 99)))) 50 = false ∧
      isAuthenticated (some (.parts 3 (some (some 10)))) 50 = false := by
  constructor
  · exact token_verification_fails_closed _ 50 (Or.inl (by decide))
  · exact token_verification_fails_closed _ 50 (Or.inr (Or.inr ⟨10, by decide, by decide⟩))

/-- C7: the forced password change rejects a new password equal to the
current password with an error before any API call; the credential
update is submitted only when the two differ. -/
theorem force_password_change_rejects_same :
    (∀ current confirm : List Char,
      ∃ msg, forcePasswordChangeSubmit current current confirm = .reject msg) ∧
    (∀ (current newPw confirm current' newPw' : List Char),
      forcePasswordChangeSubmit current newPw confirm = .submit current' newPw' →
      newPw ≠ current) := by
  constructor
  · intro current confirm
    unfold forcePasswordChangeSubmit
    split
    · exact ⟨_, rfl⟩
    · simp
  · intro current newPw confirm current' newPw' h heq
    subst heq
    unfold forcePasswordChangeSubmit at h
    split at h
    · exact FpcAction.noConfusion h
    · simp at h

/-- C7 witness: with equal current and new password the request is
rejected, and a concrete successful submission has distinct passwords. -/
theorem force_password_change_rejects_same_witness :
    (∃ msg, forcePasswordChangeSubmit ['A', 'b', 'c', 'd', 'e', 'f', '1', '!']
        ['A', 'b', 'c', 'd', 'e', 'f', '1', '!']
        ['A', 'b', 'c', 'd', 'e', 'f', '1', '!'] = .reject msg) ∧
      (['A', 'b', 'c', 'd', 'e', 'f', '1', '@'] : List Char) ≠
        ['A', 'b', 'c', 'd', 'e', 'f', '1', '!'] := by
  constructor
  · exact force_password_change_rejects_same.1 _ _
  · exact force_password_change_rejects_same.2
      ['A', 'b', 'c', 'd', 'e', 'f', '1', '!'] ['A', 'b', 'c', 'd', 'e', 'f', '1', '@']
      ['A', 'b', 'c', 'd', 'e', 'f', '1', '@'] ['A', 'b', 'c', 'd', 'e', 'f', '1', '!']
      ['A', 'b', 'c', 'd', 'e', 'f', '1', '@'] (by decide)

/-- C8: an internal transfer whose source account equals its
destination account is rejected with the same-account error before the
API is called, and every submitted transfer has distinct source and
destination. -/
theorem same_account_transfer_rejected :
    (∀ (acct : String) (a : AmountInput) (d : String),
      handleInternalTransfer acct acct a d = .reject "Cannot transfer to the same account") ∧
    (∀ (s r : String) (a : AmountInput) (d : String) (s' r' : String) (a' : AmountInput)
        (d' : String),
      handleInternalTransfer s r a d = .submit s' r' a' d' → s ≠ r) := by
  constructor
  · intro acct a d
    simp [handleInternalTransfer]
  · intro s r a d s' r' a' d' h heq
    subst heq
    simp [handleInternalTransfer] at h

/-- C8 witness: a concrete same-account transfer request is rejected,
and a concrete submitted transfer has distinct accounts. -/
theorem same_account_transfer_rejected_witness :
    handleInternalTransfer "7" "7" (.num 5) "rent" =
        .reject "Cannot transfer to the same account" ∧
      ("7" : String) ≠ "8" := by
  constructor
  · exact same_account_transfer_rejected.1 "7" (.num 5) "rent"
  · refine same_account_transfer_rejected.2 "7" "8" (.num 5) "rent" "7" "8" (.num 5) "rent" ?_
    have hreg5 : jsExponentialRegime (5 : ℚ) = false := by
      unfold jsExponentialRegime
      rw [Bool.or_eq_false_iff]
      constructor <;> rw [decide_eq_false_iff_not] <;> norm_num
    have hrej5 : jsDecimalsReject (5 : ℚ) = false := by
      unfold jsDecimalsReject
      rw [if_neg (by rw [hreg5]; exact Bool.false_ne_true), decide_eq_false_iff_not]
      simp only [ne_eq, not_not]
      norm_num
    simp [handleInternalTransfer, validateAmount, hrej5]
    norm_num

/-- C9: for an authenticated user with user data present, the protected
route renders its children iff the user holds at least one of the
listed required roles (whenever that list is non-empty) and at least
one of the listed required permissions (whenever that list is
non-empty); any other outcome in that situation is the redirect to the
forbidden page. -/
theorem protected_route_grant_iff :
    ∀ (ctx : RouteCtx) (roles perms : List String) (requireAuth : Bool) (u : StoredUser),
      ctx.loading = false → ctx.isAuthenticated = true → ctx.user = some u →
      ((protectedRoute ctx roles perms requireAuth = .render ↔
        ((roles = [] ∨ ∃ r ∈ roles, r ∈ u.roles) ∧
         (perms = [] ∨ ∃ p ∈ perms, p ∈ u.permissions))) ∧
       (protectedRoute ctx roles perms requireAuth = .render ∨
        protectedRoute ctx roles perms requireAuth = .toForbidden)) := by
  intro ctx roles perms requireAuth u hl ha hu
  by_cases h1 : roles = [] <;>
    by_cases h2 : roles.any (fun r => u.roles.contains r) <;>
    by_cases h3 : perms = [] <;>
    by_cases h4 : perms.any (fun p => u.permissions.contains p) <;>
      simp_all [protectedRoute, List.any_eq_true] <;>
      (try split_ifs) <;> (try simp_all) <;> tauto

/-- C9 witness: a concrete authenticated customer holding one of the
required roles and one of the required permissions is rendered the
protected page. -/
theorem protected_route_grant_iff_witness :
    protectedRoute ⟨false, true, some ⟨["customer"], ["accounts:view:own"]⟩, true, none⟩
        ["admin", "customer"] ["accounts:view:own"] true = .render := by
  exact (protected_route_grant_iff
      ⟨false, true, some ⟨["customer"], ["accounts:view:own"]⟩, true, none⟩
      ["admin", "customer"] ["accounts:view:own"] true
      ⟨["customer"], ["accounts:view:own"]⟩ rfl rfl rfl).1.mpr
    (by simp)

/-! ## Ledger lemmas -/

/-- Reading back the updated row. -/
lemma updateAccount_same (m : AccountMap) (id : Nat) (a : Account) :
    updateAccount m id a id = some a := by
  simp [updateAccount]

/-- Reading an untouched row. -/
lemma updateAccount_other (m : AccountMap) (id : Nat) (a : Account) (j : Nat)
    (h : j ≠ id) : updateAccount m id a j = m j := by
  simp [updateAccount, h]

/-- Characterization of a successful `applyMutation`. -/
lemma applyMutation_ok (m : AccountMap) (id : Nat) (delta : Int)
    (s : AccountStatus) (m' : AccountMap)
    (h : applyMutation m id delta s = .ok m') :
    ∃ acct, m id = some acct ∧ acct.status = s ∧ 0 ≤ acct.balance + delta ∧
      m' = updateAccount m id ⟨acct.balance + delta, acct.status⟩ := by
  unfold applyMutation at h
  cases hm : m id with
  | none => rw [hm] at h; exact Except.noConfusion h
  | some acct =>
    rw [hm] at h
    by_cases hs : acct.status = s
    · by_cases hb : acct.balance + delta < 0
      · simp [hs, hb] at h
      · simp [hs, hb] at h
        exact ⟨acct, rfl, hs, by omega, by rw [hs]; exact h.symm⟩
    · simp [hs] at h

/-- A successful `applyMutation` preserves the no-negative-balance
invariant. -/
lemma applyMutation_preserves_nonneg (m : AccountMap) (id : Nat) (delta : Int)
    (s : AccountStatus) (m' : AccountMap)
    (hinv : allNonneg m) (h : applyMutation m id delta s = .ok m') :
    allNonneg m' := by
  obtain ⟨acct, hm, _, hb, rfl⟩ := applyMutation_ok m id delta s m' h
  intro j a hj
  by_cases hij : j = id
  · subst hij
    rw [updateAccount_same] at hj
    cases hj
    exact hb
  · rw [updateAccount_other _ _ _ _ hij] at hj
    exact hinv j a hj

/-- A successful debit can always be compensated: crediting the same
amount back succeeds and restores every row of the account table. -/
lemma debit_rollback (m : AccountMap) (s : Nat) (a : Int) (m₁ : AccountMap)
    (ha : 0 ≤ a) (h : applyMutation m s (-a) .Active = .ok m₁) :
    ∃ m₂, applyMutation m₁ s a .Active = .ok m₂ ∧ ∀ j, m₂ j = m j := by
  obtain ⟨acct, hm, hst, hbal, rfl⟩ := applyMutation_ok m s (-a) .Active m₁ h
  refine ⟨updateAccount (updateAccount m s ⟨acct.balance + -a, acct.status⟩) s
      ⟨acct.balance + -a + a, acct.status⟩, ?_, ?_⟩
  · unfold applyMutation
    simp only [hst, updateAccount_same]
    rw [if_neg (by simp), if_neg (by omega)]
  · intro j
    by_cases hj : j = s
    · subst hj
      rw [updateAccount_same, hm]
      have harith : acct.balance + -a + a = acct.balance := by omega
      rw [harith]
    · rw [updateAccount_other _ _ _ _ hj, updateAccount_other _ _ _ _ hj]

/-- When the Executing phase of a transfer reports an error, every
account row is unchanged — the engine has rolled the debit back. -/
lemma transferExec_err (m : AccountMap) (s r : Nat) (a : Int) (fb : Bool)
    (ha : 0 ≤ a) (m' : AccountMap) (e : TxError)
    (h : transferExec m s r a fb = (m', some e)) :
    ∀ j, m' j = m j := by
  unfold transferExec at h
  cases hd : applyMutation m s (-a) .Active with
  | error e' =>
    simp only [hd, Prod.mk.injEq] at h
    rw [← h.1]
    intro j; rfl
  | ok m₁ =>
    simp only [hd] at h
    obtain ⟨m₂, hcomp, hpt⟩ := debit_rollback m s a m₁ ha hd
    cases fb with
    | true =>
      simp only [if_true, hcomp, Prod.mk.injEq] at h
      rw [← h.1]
      exact hpt
    | false =>
      simp only [Bool.false_eq_true, if_false] at h
      cases hc : applyMutation m₁ r a .Active with
      | ok m₃ =>
        simp only [hc, Prod.mk.injEq] at h
        exact absurd h.2 (by simp)
      | error e'' =>
        simp only [hc, hcomp, Prod.mk.injEq] at h
        rw [← h.1]
        exact hpt

/-- The Executing phase preserves the no-negative-balance invariant on
every outcome. -/
lemma transferExec_preserves_nonneg (m : AccountMap) (s r : Nat) (a : Int) (fb : Bool)
    (m' : AccountMap) (oe : Option TxError)
    (hinv : allNonneg m) (h : transferExec m s r a fb = (m', oe)) :
    allNonneg m' := by
  unfold transferExec at h
  cases hd : applyMutation m s (-a) .Active with
  | error e' =>
    simp only [hd, Prod.mk.injEq] at h
    rw [← h.1]
    exact hinv
  | ok m₁ =>
    simp only [hd] at h
    have hinv₁ : allNonneg m₁ := applyMutation_preserves_nonneg _ _ _ _ _ hinv hd
    cases fb with
    | true =>
      simp only [if_true] at h
      cases hc : applyMutation m₁ s a .Active with
      | ok m₂ =>
        simp only [hc, Prod.mk.injEq] at h
        rw [← h.1]
        exact applyMutation_preserves_nonneg _ _ _ _ _ hinv₁ hc
      | error e'' =>
        simp only [hc, Prod.mk.injEq] at h
        rw [← h.1]
        exact hinv₁
    | false =>
      simp only [Bool.false_eq_true, if_false] at h
      cases hc : applyMutation m₁ r a .Active with
      | ok m₂ =>
        simp only [hc, Prod.mk.injEq] at h
        rw [← h.1]
        exact applyMutation_preserves_nonneg _ _ _ _ _ hinv₁ hc
      | error e'' =>
        simp only [hc] at h
        cases hc₂ : applyMutation m₁ s a .Active with
        | ok m₂ =>
          simp only [hc₂, Prod.mk.injEq] at h
          rw [← h.1]
          exact applyMutation_preserves_nonneg _ _ _ _ _ hinv₁ hc₂
        | error e₃ =>
          simp only [hc₂, Prod.mk.injEq] at h
          rw [← h.1]
          exact hinv₁

/-- Deposits preserve the no-negative-balance invariant. -/
lemma depositOp_preserves_nonneg (st : EngineState) (acct : Nat) (amount : Int)
    (hinv : allNonneg st.accounts) :
    allNonneg (depositOp st acct amount).1.accounts := by
  unfold depositOp
  repeat' split
  all_goals try exact hinv
  next m' happ => exact applyMutation_preserves_nonneg _ _ _ _ _ hinv happ

/-- Withdrawals preserve the no-negative-balance invariant. -/
lemma withdrawOp_preserves_nonneg (st : EngineState) (acct : Nat) (amount : Int)
    (hinv : allNonneg st.accounts) :
    allNonneg (withdrawOp st acct amount).1.accounts := by
  unfold withdrawOp
  repeat' split
  all_goals try exact hinv
  next m' happ => exact applyMutation_preserves_nonneg _ _ _ _ _ hinv happ

/-- Internal transfers preserve the no-negative-balance invariant. -/
lemma internalTransferOp_preserves_nonneg (st : EngineState) (s r : Nat)
    (amount : Int) (fb : Bool) (hinv : allNonneg st.accounts) :
    allNonneg (internalTransferOp st s r amount fb).1.accounts := by
  unfold internalTransferOp
  repeat' split
  all_goals try exact hinv
  · next m' e heq => exact transferExec_preserves_nonneg _ _ _ _ _ _ _ hinv heq
  · next m' heq => exact transferExec_preserves_nonneg _ _ _ _ _ _ _ hinv heq

/-- External transfers preserve the no-negative-balance invariant. -/
lemma externalTransferOp_preserves_nonneg (st : EngineState) (s : Nat) (rn : String)
    (amount : Int) (fb : Bool) (hinv : allNonneg st.accounts) :
    allNonneg (externalTransferOp st s rn amount fb).1.accounts := by
  unfold externalTransferOp
  repeat' split
  all_goals try exact hinv
  · next m' e heq => exact transferExec_preserves_nonneg _ _ _ _ _ _ _ hinv heq
  · next m' heq => exact transferExec_preserves_nonneg _ _ _ _ _ _ _ hinv heq

/-- Every executed operation preserves the no-negative-balance
invariant. -/
lemma runOp_preserves_nonneg (st : EngineState) (op : Op)
    (hinv : allNonneg st.accounts) :
    allNonneg (runOp st op).1.accounts := by
  cases op with
  | deposit a amt => exact depositOp_preserves_nonneg st a amt hinv
  | withdraw a amt => exact withdrawOp_preserves_nonneg st a amt hinv
  | transferInternal s r amt => exact internalTransferOp_preserves_nonneg st s r amt false hinv
  | transferExternal s rn amt => exact externalTransferOp_preserves_nonneg st s rn amt false hinv

/-- Every serialized sequence of executed operations preserves the
no-negative-balance invariant. -/
lemma runOps_preserves_nonneg (ops : List Op) :
    ∀ st : EngineState, allNonneg st.accounts → allNonneg (runOps st ops).1.accounts := by
  induction ops with
  | nil => intro st hinv; exact hinv
  | cons op ops ih =>
    intro st hinv
    exact ih (runOp st op).1 (runOp_preserves_nonneg st op hinv)

/-- With a failure injected between debit and credit, the Executing
phase always reports an error. -/
lemma transferExec_failBetween_not_none (m : AccountMap) (s r : Nat) (a : Int)
    (m' : AccountMap) (h : transferExec m s r a true = (m', none)) : False := by
  unfold transferExec at h
  cases hd : applyMutation m s (-a) .Active with
  | error e =>
    simp only [hd, Prod.mk.injEq] at h
    exact Option.noConfusion h.2
  | ok m₁ =>
    simp only [hd, if_true] at h
    cases hc : applyMutation m₁ s a .Active with
    | ok m₂ =>
      simp only [hc, Prod.mk.injEq] at h
      exact Option.noConfusion h.2
    | error e =>
      simp only [hc, Prod.mk.injEq] at h
      exact Option.noConfusion h.2

/-- A rejected internal transfer leaves every account balance and the
transaction log unchanged. -/
lemma internalTransferOp_err (st : EngineState) (s r : Nat) (a : Int) (fb : Bool)
    (st' : EngineState) (e : TxError)
    (h : internalTransferOp st s r a fb = (st', .error e)) :
    (∀ j, st'.accounts j = st.accounts j) ∧ st'.txLog = st.txLog := by
  unfold internalTransferOp at h
  split at h
  · simp only [Prod.mk.injEq] at h
    rw [← h.1]
    exact ⟨fun j => rfl, rfl⟩
  · next hva =>
    have ha : 0 ≤ a := by
      have hva' : validAmount a = true := by
        revert hva
        cases validAmount a <;> simp
      simp only [validAmount, Bool.and_eq_true, decide_eq_true_eq] at hva'
      omega
    split at h
    · simp only [Prod.mk.injEq] at h
      rw [← h.1]
      exact ⟨fun j => rfl, rfl⟩
    · split at h
      · simp only [Prod.mk.injEq] at h
        rw [← h.1]
        exact ⟨fun j => rfl, rfl⟩
      · simp only [Prod.mk.injEq] at h
        rw [← h.1]
        exact ⟨fun j => rfl, rfl⟩
      · split at h
        · simp only [Prod.mk.injEq] at h
          rw [← h.1]
          exact ⟨fun j => rfl, rfl⟩
        · split at h
          · simp only [Prod.mk.injEq] at h
            rw [← h.1]
            exact ⟨fun j => rfl, rfl⟩
          · split at h
            · next m' e' heq =>
              simp only [Prod.mk.injEq] at h
              rw [← h.1]
              exact ⟨transferExec_err _ _ _ _ _ ha _ _ heq, rfl⟩
            · next m' heq =>
              simp only [Prod.mk.injEq] at h
              exact absurd h.2 (by simp)

/-- A rejected external transfer leaves every account balance and the
transaction log unchanged. -/
lemma externalTransferOp_err (st : EngineState) (s : Nat) (rn : String) (a : Int)
    (fb : Bool) (st' : EngineState) (e : TxError)
    (h : externalTransferOp st s rn a fb = (st', .error e)) :
    (∀ j, st'.accounts j = st.accounts j) ∧ st'.txLog = st.txLog := by
  unfold externalTransferOp at h
  split at h
  · simp only [Prod.mk.injEq] at h
    rw [← h.1]
    exact ⟨fun j => rfl, rfl⟩
  · next hva =>
    have ha : 0 ≤ a := by
      have hva' : validAmount a = true := by
        revert hva
        cases validAmount a <;> simp
      simp only [validAmount, Bool.and_eq_true, decide_eq_true_eq] at hva'
      omega
    split at h
    · simp only [Prod.mk.injEq] at h
      rw [← h.1]
      exact ⟨fun j => rfl, rfl⟩
    · split at h
      · simp only [Prod.mk.injEq] at h
        rw [← h.1]
        exact ⟨fun j => rfl, rfl⟩
      · simp only [Prod.mk.injEq] at h
        rw [← h.1]
        exact ⟨fun j => rfl, rfl⟩
      · split at h
        · simp only [Prod.mk.injEq] at h
          rw [← h.1]
          exact ⟨fun j => rfl, rfl⟩
        · split at h
          · simp only [Prod.mk.injEq] at h
            rw [← h.1]
            exact ⟨fun j => rfl, rfl⟩
          · split at h
            · next m' e' heq =>
              simp only [Prod.mk.injEq] at h
              rw [← h.1]
              exact ⟨transferExec_err _ _ _ _ _ ha _ _ heq, rfl⟩
            · next m' heq =>
              simp only [Prod.mk.injEq] at h
              exact absurd h.2 (by simp)

/-- An internal transfer with a failure injected between debit and
credit never commits. -/
lemma internalTransferOp_failBetween_not_ok (st : EngineState) (s r : Nat) (a : Int) :
    ∀ tx, (internalTransferOp st s r a true).2 ≠ .ok tx := by
  intro tx h
  unfold internalTransferOp at h
  split at h
  · simp at h
  · split at h
    · simp at h
    · split at h
      · simp at h
      · simp at h
      · split at h
        · simp at h
        · split at h
          · simp at h
          · split at h
            · next m' e' heq => simp at h
            · next m' heq =>
              exact transferExec_failBetween_not_none _ _ _ _ _ heq

/-- An external transfer with a failure injected between debit and
credit never commits. -/
lemma externalTransferOp_failBetween_not_ok (st : EngineState) (s : Nat) (rn : String)
    (a : Int) : ∀ tx, (externalTransferOp st s rn a true).2 ≠ .ok tx := by
  intro tx h
  unfold externalTransferOp at h
  split at h
  · simp at h
  · split at h
    · simp at h
    · split at h
      · simp at h
      · simp at h
      · split at h
        · simp at h
        · split at h
          · simp at h
          · split at h
            · next m' e' heq => simp at h
            · next m' heq =>
              exact transferExec_failBetween_not_none _ _ _ _ _ heq

/-- A withdrawal with a valid amount against an Active account with
sufficient balance commits and debits exactly the amount. -/
lemma withdrawOp_commits (st : EngineState) (i : Nat) (b amt : Int)
    (hacc : st.accounts i = some ⟨b, .Active⟩)
    (h0 : 0 < amt) (hmax : amt < maxAmount) (hba : amt ≤ b) :
    (withdrawOp st i amt).2 = .ok ⟨i, i, amt, "withdrawal"⟩ ∧
      (withdrawOp st i amt).1.accounts i = some ⟨b + -amt, .Active⟩ := by
  have hv : validAmount amt = true := by
    simp only [validAmount, Bool.and_eq_true, decide_eq_true_eq]
    exact ⟨h0, hmax⟩
  have hnb : ¬(b < amt) := by omega
  have hnb2 : ¬(b + -amt < 0) := by omega
  unfold withdrawOp applyMutation
  simp only [hv, Bool.not_true, Bool.false_eq_true, if_false, hacc, ne_eq,
    not_true_eq_false, if_neg hnb, if_neg hnb2]
  simp [updateAccount_same]

/-- A withdrawal with a valid amount against an Active account with
insufficient balance is rejected with `InsufficientFunds` and leaves
the engine state untouched. -/
lemma withdrawOp_insufficient (st : EngineState) (i : Nat) (c amt : Int)
    (hacc : st.accounts i = some ⟨c, .Active⟩)
    (h0 : 0 < amt) (hmax : amt < maxAmount) (hca : c < amt) :
    withdrawOp st i amt = (st, .error .InsufficientFunds) := by
  have hv : validAmount amt = true := by
    simp only [validAmount, Bool.and_eq_true, decide_eq_true_eq]
    exact ⟨h0, hmax⟩
  unfold withdrawOp
  simp only [hv, Bool.not_true, Bool.false_eq_true, if_false, hacc, ne_eq,
    not_true_eq_false, if_pos hca]

/-- When every racing withdrawal amount exceeds the current balance,
every one of them is rejected with `InsufficientFunds` and the state is
unchanged. -/
lemma runWithdrawals_all_fail (i : Nat) (amounts : List Int) :
    ∀ (st : EngineState) (c : Int), st.accounts i = some ⟨c, .Active⟩ →
      (∀ a ∈ amounts, 0 < a ∧ a < maxAmount ∧ c < a) →
      runOps st (amounts.map (Op.withdraw i)) =
        (st, amounts.map (fun _ => .error .InsufficientFunds)) := by
  induction amounts with
  | nil => intro st c _ _; rfl
  | cons a as ih =>
    intro st c hacc hall
    obtain ⟨h0, hmax, hca⟩ := hall a (by simp)
    have hw := withdrawOp_insufficient st i c a hacc h0 hmax hca
    simp only [List.map_cons, runOps, runOp, hw]
    rw [ih st c hacc (fun x hx => hall x (by simp [hx]))]

/-- When N withdrawals race against one Active account whose balance
suffices for any single one but no two of them together, the first in
serialization order commits and every other is rejected with
`InsufficientFunds`. -/
lemma race_exactly_one (st : EngineState) (i : Nat) (b a₀ : Int) (rest : List Int)
    (hacc : st.accounts i = some ⟨b, .Active⟩)
    (hall : ∀ a ∈ a₀ :: rest, 0 < a ∧ a < maxAmount ∧ a ≤ b)
    (hpair : (a₀ :: rest).Pairwise (fun x y => b < x + y)) :
    ((runOps st ((a₀ :: rest).map (Op.withdraw i))).2.countP isCommitted = 1) ∧
      (∀ res ∈ (runOps st ((a₀ :: rest).map (Op.withdraw i))).2,
        isCommitted res = false → res = .error .InsufficientFunds) := by
  obtain ⟨h0, hmax, hba⟩ := hall a₀ (by simp)
  obtain ⟨hok, hacc'⟩ := withdrawOp_commits st i b a₀ hacc h0 hmax hba
  have hrest : runOps (withdrawOp st i a₀).1 (rest.map (Op.withdraw i)) =
      ((withdrawOp st i a₀).1, rest.map (fun _ => .error .InsufficientFunds)) := by
    apply runWithdrawals_all_fail i rest (withdrawOp st i a₀).1 (b + -a₀) hacc'
    intro x hx
    obtain ⟨hx0, hxm, _⟩ := hall x (by simp [hx])
    have hbx : b < a₀ + x := (List.pairwise_cons.mp hpair).1 x hx
    exact ⟨hx0, hxm, by omega⟩
  simp only [List.map_cons, runOps, runOp, hrest]
  constructor
  · simp [List.countP_cons, hok, isCommitted, List.countP_map, Function.comp]
  · intro res hres hfail
    simp only [List.mem_cons] at hres
    rcases hres with hres | hres
    · rw [hres, hok] at hfail
      simp [isCommitted] at hfail
    · obtain ⟨x, _, hx⟩ := List.mem_map.mp hres
      exact hx.symm

/-- Witness engine state: account 0 with balance 100.00 (in cents) and
account 1 with balance 0, both Active, empty transaction log. -/
def wAccounts : AccountMap := fun j =>
  if j = 0 then some ⟨10000, .Active⟩
  else if j = 1 then some ⟨0, .Active⟩
  else none

/-- Witness engine state wrapping `wAccounts`. -/
def wState : EngineState := ⟨wAccounts, [], fun _ => none⟩

/-- C1: starting from any engine state satisfying the no-negative-
balance invariant, after every prefix of any serialized sequence of
executed operations every account balance is still ≥ 0; and when N ≥ 1
withdrawals race against one Active account whose balance suffices for
any single one of them but for no two together, exactly one request
commits and every other is rejected with `InsufficientFunds`. -/
theorem balance_nonneg_and_race_single_commit :
    (∀ (st : EngineState) (ops pre suffix : List Op), allNonneg st.accounts →
      ops = pre ++ suffix → allNonneg (runOps st pre).1.accounts) ∧
    (∀ (st : EngineState) (i : Nat) (b a₀ : Int) (rest : List Int),
      st.accounts i = some ⟨b, .Active⟩ →
      (∀ a ∈ a₀ :: rest, 0 < a ∧ a < maxAmount ∧ a ≤ b) →
      (a₀ :: rest).Pairwise (fun x y => b < x + y) →
      ((runOps st ((a₀ :: rest).map (Op.withdraw i))).2.countP isCommitted = 1 ∧
        ∀ res ∈ (runOps st ((a₀ :: rest).map (Op.withdraw i))).2,
          isCommitted res = false → res = .error .InsufficientFunds)) :=
  ⟨fun st _ pre _ hinv _ => runOps_preserves_nonneg pre st hinv,
   fun st i b a₀ rest hacc hall hpair => race_exactly_one st i b a₀ rest hacc hall hpair⟩

/-- C1 witness: from the concrete witness state, a deposit followed by
a withdrawal keeps all balances ≥ 0, and two racing withdrawals of
60.00 against the 100.00 account commit exactly once. -/
theorem balance_nonneg_and_race_single_commit_witness :
    allNonneg (runOps wState [Op.deposit 0 50000, Op.withdraw 0 20000]).1.accounts ∧
      (runOps wState (([6000, 6000] : List Int).map (Op.withdraw 0))).2.countP
        isCommitted = 1 := by
  have hnn : allNonneg wState.accounts := by
    intro j a h
    simp only [wState, wAccounts] at h
    split at h
    · cases h; decide
    · split at h
      · cases h; decide
      · exact Option.noConfusion h
  constructor
  · exact balance_nonneg_and_race_single_commit.1 wState
      [Op.deposit 0 50000, Op.withdraw 0 20000]
      [Op.deposit 0 50000, Op.withdraw 0 20000] [] hnn (by simp)
  · exact (balance_nonneg_and_race_single_commit.2 wState 0 10000 6000 [6000]
      rfl (by decide) (by decide)).1

/-- C2: every rejected transfer (internal or external), including one
with a failure injected between the debit and the credit, leaves every
account balance and the transaction log exactly as before the attempt —
the debit is fully reversed and no Transaction record is created; with
an injected failure the transfer never commits. -/
theorem transfer_rollback_atomic :
    ∀ (st : EngineState) (s r : Nat) (rn : String) (a : Int) (fb : Bool),
      (∀ (st' : EngineState) (e : TxError),
        internalTransferOp st s r a fb = (st', .error e) →
        (∀ j, st'.accounts j = st.accounts j) ∧ st'.txLog = st.txLog) ∧
      (∀ (st' : EngineState) (e : TxError),
        externalTransferOp st s rn a fb = (st', .error e) →
        (∀ j, st'.accounts j = st.accounts j) ∧ st'.txLog = st.txLog) ∧
      (∀ tx, (internalTransferOp st s r a true).2 ≠ .ok tx) ∧
      (∀ tx, (externalTransferOp st s rn a true).2 ≠ .ok tx) :=
  fun st s r rn a fb =>
    ⟨fun st' e h => internalTransferOp_err st s r a fb st' e h,
     fun st' e h => externalTransferOp_err st s rn a fb st' e h,
     internalTransferOp_failBetween_not_ok st s r a,
     externalTransferOp_failBetween_not_ok st s rn a⟩

/-- C2 witness: a concrete internal transfer of 5.00 from account 0 to
account 1 with a failure injected between debit and credit leaves the
sender's balance and the transaction log unchanged. -/
theorem transfer_rollback_atomic_witness :
    (internalTransferOp wState 0 1 500 true).1.accounts 0 = wState.accounts 0 ∧
      (internalTransferOp wState 0 1 500 true).1.txLog = wState.txLog := by
  obtain ⟨hj, hlog⟩ := (transfer_rollback_atomic wState 0 1 "ACCT-1-1" 500 true).1
    (internalTransferOp wState 0 1 500 true).1 TxError.InjectedFailure rfl
  exact ⟨hj 0, hlog⟩

end SafeBank
